import Mathlib

/-!
# PySOAR playbook engine: a shallow embedding

This file embeds the core of the PySOAR security-orchestration playbook
runner (`src/core/playbook_engine.py`, `src/core/integration_manager.py`,
`src/models/playbook.py`) in Lean and proves the specified properties of
the engine against it.

Modelling conventions:
* Python values flowing through the engine's context are modelled by the
  inductive `Value` (None, strings, integers, booleans, string-keyed
  mappings).  Mappings are association lists with Python-dict update
  semantics (`ainsert` keeps the position of an overwritten key).
  Mapping keys are modelled as strings, the shape YAML/JSON documents and
  the engine's own writes produce.
* `exec` of a `python_code` body and `eval` of a `condition` expression
  are opaque host-language facilities; they are modelled as oracle
  functions (`codeSem`, `evalSem`) supplied to the engine, returning
  `Except` to model a raised exception.  The engine calls them exactly
  where the Python engine calls `exec`/`eval`.
* A raised Python exception is modelled by the `Option String` component
  of each step's result: `some msg` is an in-flight exception carrying
  `str(e)`; the state component keeps the context/log mutations made
  before the raise, as Python's mutable `self.context` does.
* Wall-clock timestamps are modelled by a clock stream `ts : Nat → Nat`
  giving the timestamp of the i-th appended log entry; the tree walk
  itself never consults the clock, mirroring the Python code where
  `datetime.now()` is only read inside `_log` / `execute` bookkeeping.
-/

namespace PySOAR

/-- Left brace character (written via its code point). -/
def lbC : Char := Char.ofNat 123

/-- Right brace character. -/
def rbC : Char := Char.ofNat 125

/-- Single-quote character, used in the engine's log message formats. -/
def sq : String := String.singleton (Char.ofNat 39)

/-- A Python value as it appears in the engine's execution context:
`None`, `str`, `int`, `bool`, or a string-keyed `dict`. -/
inductive Value where
  | vNone : Value
  | vStr : String → Value
  | vInt : Int → Value
  | vBool : Bool → Value
  | vDict : List (String × Value) → Value
  | vList : List Value → Value
deriving Repr

/-- Execution context / generic string-keyed mapping of values. -/
abbrev Ctx := List (String × Value)

/-- `d[k]` lookup in a Python dict (first matching key; association lists
built by `ainsert` have distinct keys). -/
def alookup : Ctx → String → Option Value
  | [], _ => none
  | (k, v) :: rest, key => if k = key then some v else alookup rest key

/-- `d[k] = v` on a Python dict: overwrite in place, append if absent. -/
def ainsert : Ctx → String → Value → Ctx
  | [], k, v => [(k, v)]
  | (k', v') :: rest, k, v =>
    if k' = k then (k', v) :: rest else (k', v') :: ainsert rest k v

/-- `d.get(k, default)`. -/
def pget (d : Ctx) (k : String) (dflt : Value) : Value :=
  match alookup d k with
  | some v => v
  | none => dflt

mutual
/-- Python `repr` of a value (string approximated without escaping). -/
def Value.pyRepr : Value → String
  | Value.vNone => "None"
  | Value.vStr s => sq ++ s ++ sq
  | Value.vInt n => toString n
  | Value.vBool true => "True"
  | Value.vBool false => "False"
  | Value.vDict d => String.singleton lbC ++ reprEntries d ++ String.singleton rbC
  | Value.vList l => "[" ++ reprItems l ++ "]"

/-- `repr` of the entries of a dict, comma separated. -/
def reprEntries : List (String × Value) → String
  | [] => ""
  | [(k, v)] => sq ++ k ++ sq ++ ": " ++ Value.pyRepr v
  | (k, v) :: rest => sq ++ k ++ sq ++ ": " ++ Value.pyRepr v ++ ", " ++ reprEntries rest

/-- `repr` of the items of a list, comma separated. -/
def reprItems : List Value → String
  | [] => ""
  | [v] => Value.pyRepr v
  | v :: rest => Value.pyRepr v ++ ", " ++ reprItems rest
end

/-- Python `str` of a value: the string itself for `str`, `repr`-style
for everything else (matching `str` on None/bool/int/dict). -/
def Value.display : Value → String
  | Value.vStr s => s
  | v => v.pyRepr

/-- Python truthiness of a value (`if value:`). -/
def Value.truthy : Value → Bool
  | Value.vNone => false
  | Value.vStr s => !(s = "")
  | Value.vInt n => !(n = 0)
  | Value.vBool b => b
  | Value.vDict d => !d.isEmpty
  | Value.vList l => !l.isEmpty

/-- Truthiness of an optional string (`if action.output_variable:`
where the attribute is `None` or a `str`). -/
def optTruthy : Option String → Bool
  | none => false
  | some s => !(s = "")

/-! ## Variable resolver (`_resolve_variables`, `_get_nested_value`) -/

/-- Walk of `_get_nested_value`'s loop over the dot-split path parts.
At each part the traversed value must be a dict containing the part;
otherwise the Python function returns `None` (modelled as `vNone`, which
is also what Python returns when the stored value itself is `None`). -/
def getNestedWalk : Value → List String → Value
  | v, [] => v
  | Value.vDict d, p :: ps =>
    match alookup d p with
    | some v => getNestedWalk v ps
    | none => Value.vNone
  | _, _ :: _ => Value.vNone

/-- Accumulator loop of `path.split` on the dot separator: collect
characters of the current segment (in reverse), emit a segment at each
dot and at the end. -/
def splitDotsGo (acc : List Char) : List Char → List String
  | [] => [String.mk acc.reverse]
  | c :: cs =>
    if c = Char.ofNat 46 then String.mk acc.reverse :: splitDotsGo [] cs
    else splitDotsGo (c :: acc) cs

/-- Python's `path.split` on a dot: the empty string yields one empty
segment, consecutive dots yield empty segments. -/
def splitDots (l : List Char) : List String :=
  splitDotsGo [] l

/-- `_get_nested_value(path)`: dot-notation lookup from the context root. -/
def getNestedValue (ctx : Ctx) (path : String) : Value :=
  getNestedWalk (Value.vDict ctx) (splitDots path.data)

/-- A character Python's `str.strip()` removes: ASCII whitespace. -/
def isPySpace (c : Char) : Bool :=
  c = Char.ofNat 32 || c = Char.ofNat 9 || c = Char.ofNat 10 ||
  c = Char.ofNat 13 || c = Char.ofNat 11 || c = Char.ofNat 12

/-- Python's `str.strip()`: drop whitespace from both ends. -/
def pyStrip (s : String) : String :=
  String.mk (((s.data.dropWhile isPySpace).reverse.dropWhile isPySpace).reverse)

/-- The replacement the `replacer` callback produces for one matched
token: the found value's `str` form if the lookup result is not `None`,
else the whole matched token text (`match.group(0)`). -/
def replaceToken (ctx : Ctx) (grp : List Char) : List Char :=
  match getNestedValue ctx (pyStrip (String.mk grp)) with
  | Value.vNone => lbC :: lbC :: grp ++ [rbC, rbC]
  | v => v.display.data

/-- `dropWhile` never lengthens a list (used for termination of the
resolver's scan). -/
theorem dropWhile_length_le (p : Char → Bool) (l : List Char) :
    (l.dropWhile p).length ≤ l.length := by
  induction l with
  | nil => simp [List.dropWhile]
  | cons c cs ih =>
    by_cases h : p c
    · simp [List.dropWhile, h]
      omega
    · simp [List.dropWhile, h]

/-- One attempted match of the token pattern at the current scan
position: two left braces, a nonempty run `grp` of non-right-brace
characters, then two right braces.  On success returns the group and the
characters after the match. -/
def tryTok : List Char → Option (List Char × List Char)
  | c1 :: c2 :: cs2 =>
    if c1 = lbC && c2 = lbC then
      let grp := cs2.takeWhile (fun d => !(d = rbC))
      match cs2.dropWhile (fun d => !(d = rbC)) with
      | _ :: r2 :: rest2 =>
        if !grp.isEmpty && r2 = rbC then some (grp, rest2) else none
      | _ => none
    else none
  | _ => none

/-- A successful token match consumes at least one character. -/
theorem tryTok_length {l grp rest2 : List Char}
    (h : tryTok l = some (grp, rest2)) : rest2.length < l.length := by
  match l with
  | [] => simp [tryTok] at h
  | [c1] => simp [tryTok] at h
  | c1 :: c2 :: cs2 =>
    simp only [tryTok] at h
    by_cases hb : c1 = lbC && c2 = lbC
    · simp only [hb, if_true] at h
      have hd := dropWhile_length_le (fun d => !(d = rbC)) cs2
      revert h hd
      match hdw : cs2.dropWhile (fun d => !(d = rbC)) with
      | [] => intro h hd; simp at h
      | [r1] => intro h hd; simp at h
      | r1 :: r2 :: rest =>
        intro h hd
        by_cases hc : !(cs2.takeWhile (fun d => !(d = rbC))).isEmpty && r2 = rbC
        · simp only [hc, if_true, Option.some.injEq, Prod.mk.injEq] at h
          obtain ⟨-, h2⟩ := h
          subst h2
          simp only [List.length_cons] at hd ⊢
          omega
        · simp [hc] at h
    · simp [hb] at h

/-- The scan `re.sub` performs for the token pattern: at each position
try a match; on a match emit the replacement and resume after it, on a
mismatch emit one character and resume at the next position.  The
recursion is paced by a fuel that bounds the number of scan steps; each
step strictly shortens the remaining input, so any fuel of at least the
input's length is enough (`resolveGo_fuel`). -/
def resolveGo (ctx : Ctx) : Nat → List Char → List Char
  | _, [] => []
  | 0, _ :: _ => []
  | fuel + 1, c :: cs =>
    match tryTok (c :: cs) with
    | some (grp, rest2) => replaceToken ctx grp ++ resolveGo ctx fuel rest2
    | none => c :: resolveGo ctx fuel cs

/-- The scan with just enough fuel. -/
def resolveChars (ctx : Ctx) (l : List Char) : List Char :=
  resolveGo ctx l.length l

/-- Any fuel at least the input's length produces the same scan. -/
theorem resolveGo_fuel (ctx : Ctx) :
    ∀ (fuel fuel2 : Nat) (l : List Char),
      l.length ≤ fuel → l.length ≤ fuel2 →
      resolveGo ctx fuel l = resolveGo ctx fuel2 l := by
  intro fuel
  induction fuel with
  | zero =>
    intro fuel2 l h1 h2
    match l with
    | [] =>
      cases fuel2 <;> rfl
    | c :: cs => simp at h1
  | succ fuel ih =>
    intro fuel2 l h1 h2
    match l with
    | [] => cases fuel2 <;> rfl
    | c :: cs =>
      match fuel2 with
      | 0 => simp at h2
      | fuel2 + 1 =>
        simp only [resolveGo]
        match htk : tryTok (c :: cs) with
        | some (grp, rest2) =>
          have hlt := tryTok_length htk
          simp only [List.length_cons] at h1 h2 hlt
          simp only [ih fuel2 rest2 (by omega) (by omega)]
        | none =>
          simp only [List.length_cons] at h1 h2
          simp only [ih fuel2 cs (by omega) (by omega)]

/-- A position not starting with a left brace never matches. -/
theorem tryTok_none_head {c : Char} (cs : List Char) (h : c ≠ lbC) :
    tryTok (c :: cs) = none := by
  match cs with
  | [] => rfl
  | c2 :: cs2 =>
    simp [tryTok, h]

/-- One scan step on a non-matching position. -/
theorem resolveChars_cons_none (ctx : Ctx) (c : Char) (cs : List Char)
    (h : tryTok (c :: cs) = none) :
    resolveChars ctx (c :: cs) = c :: resolveChars ctx cs := by
  show resolveGo ctx (cs.length + 1) (c :: cs) = _
  simp only [resolveGo, h]
  rfl

/-- One scan step on a matching position. -/
theorem resolveChars_cons_some (ctx : Ctx) (c : Char) (cs grp rest2 : List Char)
    (h : tryTok (c :: cs) = some (grp, rest2)) :
    resolveChars ctx (c :: cs) = replaceToken ctx grp ++ resolveChars ctx rest2 := by
  have hlt := tryTok_length h
  simp only [List.length_cons] at hlt
  show resolveGo ctx (cs.length + 1) (c :: cs) = _
  simp only [resolveGo, h]
  rw [resolveGo_fuel ctx cs.length rest2.length rest2 (by omega) (by omega)]
  rfl

/-- Characters without a left brace pass through the scan unchanged. -/
theorem resolveChars_append_lit (ctx : Ctx) (l rest : List Char)
    (h : ∀ c ∈ l, c ≠ lbC) :
    resolveChars ctx (l ++ rest) = l ++ resolveChars ctx rest := by
  induction l with
  | nil => rfl
  | cons c l2 ih =>
    have hc : c ≠ lbC := h c (List.mem_cons_self c l2)
    rw [List.cons_append,
      resolveChars_cons_none ctx c (l2 ++ rest) (tryTok_none_head _ hc),
      ih (fun d hd => h d (List.mem_cons_of_mem c hd))]
    rfl

/-- `takeWhile`/`dropWhile` on a run of satisfying characters followed
by a failing one. -/
theorem takeWhile_dropWhile_run (p : Char → Bool) (l : List Char) (x : Char)
    (r : List Char) (hl : ∀ c ∈ l, p c = true) (hx : p x = false) :
    (l ++ x :: r).takeWhile p = l ∧ (l ++ x :: r).dropWhile p = x :: r := by
  induction l with
  | nil =>
    constructor
    · simp [List.takeWhile, hx]
    · simp [List.dropWhile, hx]
  | cons c l2 ih =>
    have hc : p c = true := hl c (List.mem_cons_self c l2)
    have ih2 := ih (fun d hd => hl d (List.mem_cons_of_mem c hd))
    constructor
    · simp [List.takeWhile, hc, ih2.1]
    · simp [List.dropWhile, hc, ih2.2]

/-- A well-formed token (nonempty group, no right brace inside) at the
head of the input matches, yielding the group and the characters after
the closing braces. -/
theorem tryTok_token (grp rest : List Char) (h1 : grp ≠ [])
    (h2 : ∀ c ∈ grp, c ≠ rbC) :
    tryTok (lbC :: lbC :: (grp ++ rbC :: rbC :: rest)) = some (grp, rest) := by
  have hrun := takeWhile_dropWhile_run (fun d => !(d = rbC)) grp rbC (rbC :: rest)
    (fun c hc => by simp [h2 c hc]) (by simp)
  have hne : grp.isEmpty = false := by
    cases grp with
    | nil => exact absurd rfl h1
    | cons g gs => rfl
  simp only [tryTok, hrun.1, hrun.2, hne]
  simp

/-- `_resolve_variables` on a string template. -/
def resolveString (ctx : Ctx) (s : String) : String :=
  String.mk (resolveChars ctx s.data)

/-- `_resolve_variables`: non-string templates pass through unchanged;
string templates have each `..path..` token (in double braces)
substituted. -/
def resolveVariables (ctx : Ctx) (t : Value) : Value :=
  match t with
  | Value.vStr s => Value.vStr (resolveString ctx s)
  | v => v

/-! ## Specification-side description of the resolver

The spec describes token lookup as a nested-mapping walk that can
distinguish "no value found" from "found the value `None`"; the
following definitions state that reading (and the claimed per-token
output) so the implementation can be compared against it. -/

/-- The spec's nested-mapping lookup: `none` when a path segment is
absent or a traversed value is not a mapping, `some v` (including
`some vNone`) when every segment resolves. -/
def specLookup : Value → List String → Option Value
  | v, [] => some v
  | Value.vDict d, p :: ps =>
    match alookup d p with
    | some v => specLookup v ps
    | none => none
  | _, _ :: _ => none

/-- The spec's lookup of a dot-separated path from the context root. -/
def specResolvePath (ctx : Ctx) (path : String) : Option Value :=
  specLookup (Value.vDict ctx) (splitDots path.data)

/-- The code's lookup equals the spec's lookup with found-`None` and
not-found conflated into `None`. -/
theorem getNestedWalk_spec (ps : List String) :
    ∀ v : Value, getNestedWalk v ps = (specLookup v ps).getD Value.vNone := by
  induction ps with
  | nil =>
    intro v
    cases v <;> rfl
  | cons p ps ih =>
    intro v
    cases v with
    | vDict d =>
      simp only [getNestedWalk, specLookup]
      cases alookup d p with
      | some w => exact ih w
      | none => rfl
    | vNone => rfl
    | vStr s => rfl
    | vInt n => rfl
    | vBool b => rfl
    | vList l => rfl

/-- `_get_nested_value` against the spec's path lookup. -/
theorem getNestedValue_spec (ctx : Ctx) (path : String) :
    getNestedValue ctx path = (specResolvePath ctx path).getD Value.vNone :=
  getNestedWalk_spec (splitDots path.data) (Value.vDict ctx)

/-- The literal text of a `path` token wrapped in double braces. -/
def mkToken (p : String) : String :=
  String.mk (lbC :: lbC :: (p.data ++ [rbC, rbC]))

/-- A template described as a sequence of literal pieces and tokens. -/
inductive TItem where
  | lit (s : String)
  | tok (path : String)

/-- Render a described template to its literal text. -/
def renderT : List TItem → String
  | [] => ""
  | TItem.lit s :: rest => s ++ renderT rest
  | TItem.tok p :: rest => mkToken p ++ renderT rest

/-- The output the resolver produces for one token (per the code: a
lookup producing `None` — found or not — leaves the token verbatim,
anything else substitutes the display string). -/
def specTokenOut (ctx : Ctx) (p : String) : String :=
  match specResolvePath ctx (pyStrip p) with
  | some Value.vNone => mkToken p
  | some v => v.display
  | none => mkToken p

/-- The claimed output of resolution on a described template. -/
def resolveT (ctx : Ctx) : List TItem → String
  | [] => ""
  | TItem.lit s :: rest => s ++ resolveT ctx rest
  | TItem.tok p :: rest => specTokenOut ctx p ++ resolveT ctx rest

/-- Well-formedness of a described template item: literal pieces hold
no left brace (so no token can start inside them), token paths are
nonempty and hold no right brace (so the token's group is exactly the
path). -/
def wfItem : TItem → Prop
  | TItem.lit s => ∀ c ∈ s.data, c ≠ lbC
  | TItem.tok p => p.data ≠ [] ∧ ∀ c ∈ p.data, c ≠ rbC

/-- The replacement for a token's group is the spec-described per-token
output. -/
theorem replaceToken_spec (ctx : Ctx) (p : String) :
    replaceToken ctx p.data = (specTokenOut ctx p).data := by
  have hmk : String.mk p.data = p := by
    rcases p with ⟨d⟩
    rfl
  unfold replaceToken specTokenOut
  rw [hmk, getNestedValue_spec]
  cases hsp : specResolvePath ctx (pyStrip p) with
  | none => rfl
  | some v => cases v <;> rfl

/-- The resolver's scan on a rendered well-formed template produces
exactly the spec-described output. -/
theorem resolveChars_render (ctx : Ctx) :
    ∀ items : List TItem, (∀ it ∈ items, wfItem it) →
      resolveChars ctx (renderT items).data = (resolveT ctx items).data := by
  intro items
  induction items with
  | nil => intro _; rfl
  | cons it rest ih =>
    intro hwf
    have hit := hwf it (List.mem_cons_self it rest)
    have hrest := ih (fun x hx => hwf x (List.mem_cons_of_mem it hx))
    cases it with
    | lit s =>
      show resolveChars ctx ((s ++ renderT rest).data) = ((s ++ resolveT ctx rest).data)
      rw [String.data_append, String.data_append,
        resolveChars_append_lit ctx s.data (renderT rest).data hit, hrest]
    | tok p =>
      obtain ⟨hp1, hp2⟩ := hit
      show resolveChars ctx ((mkToken p ++ renderT rest).data) =
        ((specTokenOut ctx p ++ resolveT ctx rest).data)
      rw [String.data_append, String.data_append]
      have hshape : (mkToken p).data ++ (renderT rest).data =
          lbC :: lbC :: (p.data ++ rbC :: rbC :: (renderT rest).data) := by
        show (lbC :: lbC :: (p.data ++ [rbC, rbC])) ++ (renderT rest).data = _
        simp [List.append_assoc]
      rw [hshape,
        resolveChars_cons_some ctx lbC (lbC :: (p.data ++ rbC :: rbC :: (renderT rest).data))
          p.data (renderT rest).data (tryTok_token p.data (renderT rest).data hp1 hp2),
        replaceToken_spec, hrest]

/-! ## Action and playbook data model (`src/models/playbook.py`) -/

/-- One playbook action: identifier, type tag, parameter mapping,
optional output variable, and for conditional actions the condition
expression and the two optional child branches. -/
inductive Action where
  | mk (id : String) (type : String) (parameters : Ctx)
       (output_variable : Option String) (condition : Option String)
       (if_true : Option (List Action)) (if_false : Option (List Action))

/-- Action identifier. -/
def Action.id : Action → String
  | Action.mk i _ _ _ _ _ _ => i

/-- Action type tag. -/
def Action.type : Action → String
  | Action.mk _ t _ _ _ _ _ => t

/-- Action parameter mapping. -/
def Action.parameters : Action → Ctx
  | Action.mk _ _ p _ _ _ _ => p

/-- Optional output variable name. -/
def Action.outputVar : Action → Option String
  | Action.mk _ _ _ o _ _ _ => o

/-- Optional condition expression. -/
def Action.cond : Action → Option String
  | Action.mk _ _ _ _ c _ _ => c

/-- Optional `if_true` branch. -/
def Action.ifTrue : Action → Option (List Action)
  | Action.mk _ _ _ _ _ t _ => t

/-- Optional `if_false` branch. -/
def Action.ifFalse : Action → Option (List Action)
  | Action.mk _ _ _ _ _ _ f => f

/-- A loaded playbook. -/
structure Playbook where
  name : String
  description : String
  trigger : String
  inputs : List String
  actions : List Action

/-! ## Integration manager (`src/core/integration_manager.py`) -/

/-- A loaded integration is an opaque handler mapping an action name and
a parameter mapping to a result value. -/
abbrev Integration := Value → Ctx → Value

/-- Lookup in the manager's string-keyed integration registry. -/
def ilookup : List (String × Integration) → String → Option Integration
  | [], _ => none
  | (k, f) :: rest, key => if k = key then some f else ilookup rest key

/-- The integration manager: its registry of loaded integrations. -/
structure IntegrationMgr where
  integrations : List (String × Integration)

/-- The error payload `execute_action` builds for an unknown or disabled
integration name. -/
def notFoundResult (name : Value) : Value :=
  Value.vDict
    [("success", Value.vBool false),
     ("error", Value.vStr ("Integration " ++ sq ++ name.display ++ sq ++
       " not found or not enabled"))]

/-- `IntegrationManager.execute_action`: dispatch to the named
integration, or return a structured failure value (never raise) when the
name is unknown.  A non-string name is never in the string-keyed
registry. -/
def IntegrationMgr.executeAction (m : IntegrationMgr)
    (name method : Value) (ps : Ctx) : Value :=
  let found := match name with
    | Value.vStr n => ilookup m.integrations n
    | _ => none
  match found with
  | none => notFoundResult name
  | some f => f method ps

/-! ## Engine (`src/core/playbook_engine.py`) -/

/-- The host-language facilities the engine is parameterised over: the
optional integration manager, the semantics of `exec` on a code body
(given the seeding globals), and the semantics of `eval` on a resolved
condition (given the context as locals).  `Except.error` models a raised
exception carrying `str(e)`. -/
structure EngSem where
  integrationManager : Option IntegrationMgr
  codeSem : Value → Ctx → Except String Ctx
  evalSem : Value → Ctx → Except String Value

/-- Mutable engine state during one run: the variable context and the
ordered log as (level, message) pairs; timestamps are attached at report
assembly from the clock stream. -/
structure EngState where
  context : Ctx
  log : List (String × String)

/-- `_log(message, level)`: append one entry. -/
def logMsg (lvl msg : String) (s : EngState) : EngState :=
  { s with log := s.log ++ [(lvl, msg)] }

/-- The result of executing one action or a sequence: the state after,
and `some msg` when an exception is in flight. -/
abbrev StepRes := EngState × Option String

/-- A context value used as a dict key (`self.context[var_name] = ...`).
Keys are modelled as strings; a non-string key is represented by its
`repr`, which no dot-path segment produced by the resolver collides with
in the string-keyed documents this engine handles. -/
def keyOf : Value → String
  | Value.vStr s => s
  | v => v.pyRepr

/-- The condition attribute as the value `_resolve_variables` receives
(`None` when absent). -/
def optStrValue : Option String → Value
  | none => Value.vNone
  | some s => Value.vStr s

/-- `_action_log`: resolve the message template, append `LOG: ...`. -/
def actionLog (a : Action) (s : EngState) : StepRes :=
  let message := resolveVariables s.context (pget a.parameters "message" (Value.vStr ""))
  (logMsg "INFO" ("LOG: " ++ message.display) s, none)

/-- `_action_python_code`: run the code body on globals seeded from the
context; afterwards capture a `result` binding into the declared output
variable.  A raise inside `exec` leaves the context untouched. -/
def actionPythonCode (sem : EngSem) (a : Action) (s : EngState) : StepRes :=
  let codeVal := pget a.parameters "code" (Value.vStr "")
  match sem.codeSem codeVal s.context with
  | Except.error e => (s, some e)
  | Except.ok env =>
    match a.outputVar with
    | some ov =>
      if ov = "" then (s, none)
      else
        match alookup env "result" with
        | some r =>
          (logMsg "INFO" ("Stored result in variable: " ++ ov)
            { s with context := ainsert s.context ov r }, none)
        | none => (s, none)
    | none => (s, none)

/-- `_action_set_variable`: resolve the value template and store it
under the given name, overwriting any prior binding. -/
def actionSetVariable (a : Action) (s : EngState) : StepRes :=
  let varName := pget a.parameters "name" Value.vNone
  let varValue := resolveVariables s.context (pget a.parameters "value" Value.vNone)
  (logMsg "INFO" ("Set variable " ++ sq ++ varName.display ++ sq ++ " = " ++ varValue.display)
    { s with context := ainsert s.context (keyOf varName) varValue }, none)

/-- `_action_api_call`: require a configured integration manager (else a
fatal `ValueError`), resolve every parameter template, log the call,
invoke the manager, and capture the result into the declared output
variable.  A non-mapping `parameters` value is modelled as empty. -/
def actionApiCall (sem : EngSem) (a : Action) (s : EngState) : StepRes :=
  match sem.integrationManager with
  | none => (s, some "Integration manager not configured")
  | some mgr =>
    let integration := pget a.parameters "integration" Value.vNone
    let method := pget a.parameters "method" Value.vNone
    let prms := match pget a.parameters "parameters" (Value.vDict []) with
      | Value.vDict l => l
      | _ => []
    let resolved := prms.map (fun kv => (kv.1, resolveVariables s.context kv.2))
    let s2 := logMsg "INFO" ("Calling " ++ integration.display ++ "." ++ method.display ++
      " with params: " ++ (Value.vDict resolved).pyRepr) s
    let result := mgr.executeAction integration method resolved
    match a.outputVar with
    | some ov =>
      if ov = "" then (s2, none)
      else
        (logMsg "INFO" ("Stored API result in variable: " ++ ov)
          { s2 with context := ainsert s2.context ov result }, none)
    | none => (s2, none)

/-- The branch a condition result selects for the recursive walk:
the Python `if result and action.if_true: ... elif not result and
action.if_false: ...` runs the taken branch's children when that branch
is a nonempty list (a `None` or empty branch is falsy) and otherwise
runs nothing, i.e. the empty walk. -/
def pickBranch (r : Value) (ifT ifF : Option (List Action)) : List Action :=
  if r.truthy then
    match ifT with
    | some (x :: xs) => x :: xs
    | _ => []
  else
    match ifF with
    | some (x :: xs) => x :: xs
    | _ => []

/-- The selected branch is no larger than the two branch fields
(for termination of the tree walk). -/
theorem pickBranch_sizeOf (r : Value) (ifT ifF : Option (List Action)) :
    sizeOf (pickBranch r ifT ifF) ≤ sizeOf ifT + sizeOf ifF := by
  unfold pickBranch
  by_cases h : r.truthy
  · simp only [h, if_true]
    cases ifT with
    | none => cases ifF <;> simp <;> omega
    | some l => cases l with
      | nil => cases ifF <;> simp <;> omega
      | cons x xs =>
        simp
        omega
  · simp only [h, if_false, Bool.false_eq_true]
    cases ifF with
    | none => cases ifT <;> simp <;> omega
    | some l => cases l with
      | nil => cases ifT <;> simp <;> omega
      | cons x xs =>
        simp
        omega

mutual
/-- `_execute_action`: log the dispatch entry, then dispatch on the
action's type tag; an unrecognised tag raises `ValueError`. -/
def execAction (sem : EngSem) : Action → EngState → StepRes
  | Action.mk i ty ps ov c ifT ifF, s =>
    let a := Action.mk i ty ps ov c ifT ifF
    let s1 := logMsg "INFO" ("Executing action: " ++ i ++ " (type: " ++ ty ++ ")") s
    if ty = "log" then actionLog a s1
    else if ty = "python_code" then actionPythonCode sem a s1
    else if ty = "condition" then
      -- `_action_condition`, inlined for the recursive branch walk;
      -- the dispatch-entry log append leaves the context unchanged, so
      -- resolution and evaluation read `s.context`
      let condVal := resolveVariables s.context (optStrValue c)
      match sem.evalSem condVal s.context with
      | Except.error e => (s1, some e)
      | Except.ok r =>
        let s2 := logMsg "INFO" ("Condition " ++ sq ++ condVal.display ++ sq ++
          " evaluated to: " ++ r.display) s1
        execActions sem (pickBranch r ifT ifF) s2
    else if ty = "set_variable" then actionSetVariable a s1
    else if ty = "api_call" then actionApiCall sem a s1
    else (s1, some ("Unknown action type: " ++ ty))
termination_by a _ => sizeOf a
decreasing_by
  have h := pickBranch_sizeOf r ifT ifF
  simp at h
  simp
  omega

/-- The engine's sequential walk over a list of actions: stop at the
first in-flight exception. -/
def execActions (sem : EngSem) : List Action → EngState → StepRes
  | [], s => (s, none)
  | a :: rest, s =>
    match execAction sem a s with
    | (s2, none) => execActions sem rest s2
    | (s2, some e) => (s2, some e)
termination_by l _ => sizeOf l
end

/-- On a truthy result the walk continues with the `if_true` children
(none when the branch is absent or empty), on a falsy result with the
`if_false` children. -/
theorem pickBranch_eq (r : Value) (ifT ifF : Option (List Action)) :
    pickBranch r ifT ifF =
      if r.truthy then ifT.getD [] else ifF.getD [] := by
  unfold pickBranch
  by_cases h : r.truthy
  · simp only [h, if_true]
    cases ifT with
    | none => rfl
    | some l => cases l <;> rfl
  · simp only [h, if_false, Bool.false_eq_true]
    cases ifF with
    | none => rfl
    | some l => cases l <;> rfl

/-- A timestamped entry of the report's execution log. -/
structure LogEntry where
  timestamp : Nat
  level : String
  message : String
deriving Repr, DecidableEq

/-- Attach timestamps from the clock stream to the run's log, the i-th
entry getting the i-th clock reading. -/
def stampLog (ts : Nat → Nat) (i : Nat) : List (String × String) → List LogEntry
  | [] => []
  | (lvl, msg) :: rest => LogEntry.mk (ts i) lvl msg :: stampLog ts (i + 1) rest

/-- The Execution Report `execute` returns. -/
structure Report where
  status : String
  error : Option String
  duration_seconds : Nat
  execution_log : List LogEntry
  context : Ctx

/-- The state a run starts from: a fresh context holding only the
`inputs` sub-mapping, and an empty log. -/
def startState (inputs : Ctx) : EngState :=
  { context := [("inputs", Value.vDict inputs)], log := [] }

/-- Elapsed time of a run under the clock stream: last clock reading
minus the first. -/
def durationOf (ts : Nat → Nat) (l : List (String × String)) : Nat :=
  ts l.length - ts 0

/-- `PlaybookEngine.execute`: run all root actions in sequence inside
the top-level exception boundary and assemble the Execution Report. -/
def execute (sem : EngSem) (ts : Nat → Nat) (pb : Playbook) (inputs : Ctx) : Report :=
  let s1 := logMsg "INFO" ("Starting playbook: " ++ pb.name) (startState inputs)
  match execActions sem pb.actions s1 with
  | (s2, none) =>
    { status := "SUCCESS", error := none,
      duration_seconds := durationOf ts s2.log,
      execution_log := stampLog ts 0 s2.log, context := s2.context }
  | (s2, some e) =>
    let s3 := logMsg "ERROR" ("Playbook execution failed: " ++ e) s2
    { status := "FAILED", error := some e,
      duration_seconds := durationOf ts s3.log,
      execution_log := stampLog ts 0 s3.log, context := s3.context }

/-! ## Playbook loader (`Playbook.from_dict`, `Playbook._parse_action`)

A parsed YAML document is a `Value`.  The loader reads every field with
`dict.get` and a default, so a mapping-shaped action object with fields
absent parses without any error.  A present field of the wrong runtime
type would make the Python loader fail with a host-language type error
(never a dedicated load error); wrong-typed present fields are outside
the documents these theorems quantify over and are given harmless
defaults here. -/

/-- `action_data.get(k, default)` read as a string field. -/
def getStrD (es : Ctx) (k dflt : String) : String :=
  match alookup es k with
  | some (Value.vStr s) => s
  | some v => v.display
  | none => dflt

/-- `action_data.get(k)` read as an optional string field (`None` when
the key is absent). -/
def getOptStr (es : Ctx) (k : String) : Option String :=
  match alookup es k with
  | some (Value.vStr s) => some s
  | _ => none

/-- `action_data.get("parameters", \x7b\x7d)`. -/
def getDictD (es : Ctx) (k : String) : Ctx :=
  match alookup es k with
  | some (Value.vDict d) => d
  | _ => []

mutual
/-- `Playbook._parse_action`: build an `Action` from a mapping-shaped
document node; every field is read with a default, and the branch lists
are parsed recursively only for a `condition`-typed node whose key is
present. -/
def parseAction : Value → Action
  | Value.vDict es =>
    let ty := getStrD es "type" ""
    Action.mk (getStrD es "id" "") ty (getDictD es "parameters")
      (getOptStr es "output_variable") (getOptStr es "condition")
      (if ty = "condition" then findParseBranch es "if_true" else none)
      (if ty = "condition" then findParseBranch es "if_false" else none)
  | _ => Action.mk "" "" [] none none none none

/-- `if key in action_data:` followed by parsing the branch list; `none`
when the key is absent. -/
def findParseBranch : List (String × Value) → String → Option (List Action)
  | [], _ => none
  | (k, v) :: rest, key =>
    if k = key then some (parseItems v) else findParseBranch rest key

/-- Parse the items of a branch list document. -/
def parseItems : Value → List Action
  | Value.vList items => parseList items
  | _ => []

/-- Parse a list of action documents in order. -/
def parseList : List Value → List Action
  | [] => []
  | d :: ds => parseAction d :: parseList ds
end

/-- `Playbook.from_dict`: read the `playbook` object and its fields,
each with a default, and parse the action list. -/
def fromDict (data : Value) : Playbook :=
  let pd : Ctx := match data with
    | Value.vDict es =>
      match alookup es "playbook" with
      | some (Value.vDict ps) => ps
      | _ => []
    | _ => []
  let actions := match alookup pd "actions" with
    | some (Value.vList items) => parseList items
    | _ => []
  { name := getStrD pd "name" "Unnamed Playbook",
    description := getStrD pd "description" "",
    trigger := getStrD pd "trigger" "manual",
    inputs := (match alookup pd "inputs" with
      | some (Value.vList items) => items.map Value.display
      | _ => []),
    actions := actions }

/-! ## General lemmas about the walk -/

/-- The state every run's tree walk starts from: fresh context and the
opening log entry. -/
def runStart (pb : Playbook) (inputs : Ctx) : EngState :=
  logMsg "INFO" ("Starting playbook: " ++ pb.name) (startState inputs)

/-- The dispatch-entry log message of an action. -/
def entryMsg (a : Action) : String :=
  "Executing action: " ++ a.id ++ " (type: " ++ a.type ++ ")"

/-- Splitting a sequential walk: run the first block; if it finishes
cleanly continue with the second, otherwise stop with its error. -/
theorem execActions_append (sem : EngSem) (l1 l2 : List Action) (s : EngState) :
    execActions sem (l1 ++ l2) s =
      match execActions sem l1 s with
      | (s2, none) => execActions sem l2 s2
      | (s2, some e) => (s2, some e) := by
  induction l1 generalizing s with
  | nil => simp [execActions]
  | cons a rest ih =>
    simp only [List.cons_append, execActions]
    match execAction sem a s with
    | (s2, none) => simpa using ih s2
    | (s2, some e) => simp

/-- `execute` reports exactly what the walk produced: a clean walk is a
SUCCESS report with no error, a walk stopped by an in-flight exception
is a FAILED report carrying that exception's message, the walk's final
context, and the walk's log extended by the failure entry. -/
theorem execute_report (sem : EngSem) (ts : Nat → Nat) (pb : Playbook) (inputs : Ctx) :
    execute sem ts pb inputs =
      match execActions sem pb.actions (runStart pb inputs) with
      | (s2, none) =>
        { status := "SUCCESS", error := none,
          duration_seconds := durationOf ts s2.log,
          execution_log := stampLog ts 0 s2.log, context := s2.context }
      | (s2, some e) =>
        let s3 := logMsg "ERROR" ("Playbook execution failed: " ++ e) s2
        { status := "FAILED", error := some e,
          duration_seconds := durationOf ts s3.log,
          execution_log := stampLog ts 0 s3.log, context := s3.context } := rfl

/-- A key just stored is looked up as the stored value. -/
theorem alookup_ainsert_self (d : Ctx) (k : String) (v : Value) :
    alookup (ainsert d k v) k = some v := by
  induction d with
  | nil => simp [ainsert, alookup]
  | cons kv rest ih =>
    by_cases h : kv.1 = k
    · simp [ainsert, h, alookup]
    · simp [ainsert, h, alookup, ih]

/-! ## Concrete fixtures used by the witness theorems -/

/-- A semantics with no integration manager; `exec` is a no-op and
`eval` returns `True`. -/
def semTrue : EngSem :=
  ⟨none, fun _ c => Except.ok c, fun _ _ => Except.ok (Value.vBool true)⟩

/-- A semantics with an empty integration manager; `eval` returns
`False`. -/
def semMgrFalse : EngSem :=
  ⟨some ⟨[]⟩, fun _ c => Except.ok c, fun _ _ => Except.ok (Value.vBool false)⟩

/-- The identity clock stream. -/
def tsId : Nat → Nat := fun i => i

/-- A three-action playbook: set `X` to 1, hit an unknown action type,
then (unreachably) set `X` to 2. -/
def pbFailDemo : Playbook :=
  ⟨"F", "", "manual", [],
   [Action.mk "A" "set_variable"
      [("name", Value.vStr "X"), ("value", Value.vInt 1)] none none none none,
    Action.mk "B" "boom" [] none none none none,
    Action.mk "C" "set_variable"
      [("name", Value.vStr "X"), ("value", Value.vInt 2)] none none none none]⟩

/-- The engine state after the opening log entry and action `A` of the
demo playbook: `X` is 1 and three log entries exist. -/
def stateAfterA : EngState :=
  { context := [("inputs", Value.vDict []), ("X", Value.vInt 1)],
    log := [("INFO", "Starting playbook: F"),
            ("INFO", "Executing action: A (type: set_variable)"),
            ("INFO", "Set variable " ++ sq ++ "X" ++ sq ++ " = 1")] }

/-- Concrete evaluation: the demo playbook's first action walks cleanly
to `stateAfterA`. -/
theorem pre_walk_demo :
    execActions semTrue
      [Action.mk "A" "set_variable"
        [("name", Value.vStr "X"), ("value", Value.vInt 1)] none none none none]
      (runStart pbFailDemo []) = (stateAfterA, none) := by
  simp only [execActions, execAction]
  rfl

/-- Concrete evaluation: the unknown-typed action `B` raises from
`stateAfterA`. -/
theorem boom_step_demo :
    execAction semTrue (Action.mk "B" "boom" [] none none none none) stateAfterA =
      ({ stateAfterA with
          log := stateAfterA.log ++ [("INFO", "Executing action: B (type: boom)")] },
       some "Unknown action type: boom") := by
  rw [execAction]
  rfl

/-! ## Claims -/

/-- C1: for every playbook and inputs mapping, `execute` returns an
Execution Report and never propagates an exception to the caller (in
the embedding, `execute` is a total function into `Report`, and every
handler error surfaces only as the walk's `Option String` component):
an error raised anywhere in the tree walk makes the report FAILED with
that error's message, and a clean walk makes it SUCCESS with no
error; every run is one of these two cases. -/
theorem run_boundary_captures_all_errors (sem : EngSem) (ts : Nat → Nat)
    (pb : Playbook) (inputs : Ctx) :
    (∀ s2, execActions sem pb.actions (runStart pb inputs) = (s2, none) →
      (execute sem ts pb inputs).status = "SUCCESS" ∧
      (execute sem ts pb inputs).error = none) ∧
    (∀ s2 e, execActions sem pb.actions (runStart pb inputs) = (s2, some e) →
      (execute sem ts pb inputs).status = "FAILED" ∧
      (execute sem ts pb inputs).error = some e) ∧
    (((execute sem ts pb inputs).status = "SUCCESS" ∧
        (execute sem ts pb inputs).error = none) ∨
     ((execute sem ts pb inputs).status = "FAILED" ∧
        ∃ e, (execute sem ts pb inputs).error = some e)) := by
  refine ⟨?_, ?_, ?_⟩
  · intro s2 h
    rw [execute_report, h]
    exact ⟨rfl, rfl⟩
  · intro s2 e h
    rw [execute_report, h]
    exact ⟨rfl, rfl⟩
  · rcases hw : execActions sem pb.actions (runStart pb inputs) with ⟨s2, err⟩
    cases err with
    | none =>
      left
      rw [execute_report, hw]
      exact ⟨rfl, rfl⟩
    | some e =>
      right
      rw [execute_report, hw]
      exact ⟨rfl, e, rfl⟩

/-- Witness for C1 at a concrete failing playbook. -/
theorem run_boundary_captures_all_errors_witness :
    (execute semTrue tsId pbFailDemo []).status = "FAILED" ∧
    (execute semTrue tsId pbFailDemo []).error = some "Unknown action type: boom" := by
  have hseq : execActions semTrue pbFailDemo.actions (runStart pbFailDemo []) =
      ({ stateAfterA with
          log := stateAfterA.log ++ [("INFO", "Executing action: B (type: boom)")] },
       some "Unknown action type: boom") := by
    simp only [pbFailDemo, execActions, execAction]
    rfl
  exact (run_boundary_captures_all_errors semTrue tsId pbFailDemo []).2.1 _ _ hseq

/-- C2: fail-fast with observable partial progress.  If the root
sequence splits as `pre ++ b :: post`, `pre` walks cleanly to state `s'`
and `b` raises `e` from `s'`, then the whole run's report is exactly
FAILED with `b`'s error message, its context snapshot is the context at
the moment of the failure (so every mutation `pre` made is still
visible), and its log is the log at the moment of the failure plus the
single closing ERROR entry — nothing from `post`, and in particular no
`Executing action` entry for any action of `post`, is ever produced.
(An error below a condition node propagates through `execAction` the
same way, so a pending ancestor continuation is likewise never
resumed.) -/
theorem fail_fast_halts_walk (sem : EngSem) (ts : Nat → Nat)
    (pb : Playbook) (inputs : Ctx) (pre : List Action) (b : Action)
    (post : List Action) (s' s'' : EngState) (e : String)
    (hacts : pb.actions = pre ++ b :: post)
    (hpre : execActions sem pre (runStart pb inputs) = (s', none))
    (hb : execAction sem b s' = (s'', some e)) :
    execute sem ts pb inputs =
      { status := "FAILED", error := some e,
        duration_seconds :=
          durationOf ts (s''.log ++ [("ERROR", "Playbook execution failed: " ++ e)]),
        execution_log :=
          stampLog ts 0 (s''.log ++ [("ERROR", "Playbook execution failed: " ++ e)]),
        context := s''.context } := by
  have hseq : execActions sem pb.actions (runStart pb inputs) = (s'', some e) := by
    rw [hacts, execActions_append, hpre]
    show execActions sem (b :: post) s' = (s'', some e)
    rw [execActions, hb]
  rw [execute_report, hseq]
  rfl

/-- Witness for C2: in the concrete three-action playbook, the report is
FAILED with the second action's error, action C's dispatch entry is
absent from the log, and `X` keeps the value action A stored. -/
theorem fail_fast_halts_walk_witness :
    execute semTrue tsId pbFailDemo [] =
      { status := "FAILED", error := some "Unknown action type: boom",
        duration_seconds := durationOf tsId
          ([("INFO", "Starting playbook: F"),
            ("INFO", "Executing action: A (type: set_variable)"),
            ("INFO", "Set variable " ++ sq ++ "X" ++ sq ++ " = 1"),
            ("INFO", "Executing action: B (type: boom)")] ++
           [("ERROR", "Playbook execution failed: Unknown action type: boom")]),
        execution_log := stampLog tsId 0
          ([("INFO", "Starting playbook: F"),
            ("INFO", "Executing action: A (type: set_variable)"),
            ("INFO", "Set variable " ++ sq ++ "X" ++ sq ++ " = 1"),
            ("INFO", "Executing action: B (type: boom)")] ++
           [("ERROR", "Playbook execution failed: Unknown action type: boom")]),
        context := [("inputs", Value.vDict []), ("X", Value.vInt 1)] } :=
  fail_fast_halts_walk semTrue tsId pbFailDemo []
    [Action.mk "A" "set_variable"
      [("name", Value.vStr "X"), ("value", Value.vInt 1)] none none none none]
    (Action.mk "B" "boom" [] none none none none)
    [Action.mk "C" "set_variable"
      [("name", Value.vStr "X"), ("value", Value.vInt 2)] none none none none]
    stateAfterA _ "Unknown action type: boom" rfl pre_walk_demo boom_step_demo

/-- C8: exhaustive dispatch.  An action whose type tag is none of the
five recognised kinds is never silently skipped: its dispatch makes the
walk raise `Unknown action type: <type>` right after the dispatch-entry
log line, and a run reaching such an action reports FAILED with exactly
that message. -/
theorem unknown_action_kind_fatal (sem : EngSem) (a : Action) (s : EngState)
    (h1 : a.type ≠ "log") (h2 : a.type ≠ "python_code")
    (h3 : a.type ≠ "condition") (h4 : a.type ≠ "set_variable")
    (h5 : a.type ≠ "api_call") :
    execAction sem a s =
      (logMsg "INFO" (entryMsg a) s, some ("Unknown action type: " ++ a.type)) ∧
    (∀ ts pb inputs pre post s',
      pb.actions = pre ++ a :: post →
      execActions sem pre (runStart pb inputs) = (s', none) →
      (execute sem ts pb inputs).status = "FAILED" ∧
      (execute sem ts pb inputs).error = some ("Unknown action type: " ++ a.type)) := by
  obtain ⟨i, ty, ps, ov, c, ifT, ifF⟩ := a
  simp only [Action.type] at h1 h2 h3 h4 h5
  have hstep : ∀ st : EngState,
      execAction sem (Action.mk i ty ps ov c ifT ifF) st =
        (logMsg "INFO" (entryMsg (Action.mk i ty ps ov c ifT ifF)) st,
         some ("Unknown action type: " ++ ty)) := by
    intro st
    rw [execAction, if_neg h1, if_neg h2, if_neg h3, if_neg h4, if_neg h5]
    rfl
  refine ⟨hstep s, ?_⟩
  intro ts pb inputs pre post s' hacts hpre
  have hseq : execActions sem pb.actions (runStart pb inputs) =
      (logMsg "INFO" (entryMsg (Action.mk i ty ps ov c ifT ifF)) s',
       some ("Unknown action type: " ++ ty)) := by
    rw [hacts, execActions_append, hpre]
    show execActions sem (Action.mk i ty ps ov c ifT ifF :: post) s' = _
    rw [execActions, hstep s']
  rw [execute_report, hseq]
  exact ⟨rfl, rfl⟩

/-- Witness for C8 at the concrete unknown type `boom`. -/
theorem unknown_action_kind_fatal_witness :
    (execAction semTrue (Action.mk "B" "boom" [] none none none none)
        (startState []) =
      (logMsg "INFO" (entryMsg (Action.mk "B" "boom" [] none none none none))
        (startState []), some "Unknown action type: boom")) ∧
    (execute semTrue tsId pbFailDemo []).status = "FAILED" ∧
    (execute semTrue tsId pbFailDemo []).error =
      some "Unknown action type: boom" := by
  have h := unknown_action_kind_fatal semTrue
    (Action.mk "B" "boom" [] none none none none) (startState [])
    (by decide) (by decide) (by decide) (by decide) (by decide)
  exact ⟨h.1, h.2 tsId pbFailDemo []
    [Action.mk "A" "set_variable"
      [("name", Value.vStr "X"), ("value", Value.vInt 1)] none none none none]
    [Action.mk "C" "set_variable"
      [("name", Value.vStr "X"), ("value", Value.vInt 2)] none none none none]
    stateAfterA rfl pre_walk_demo⟩

/-- C4: condition branching.  When the resolved condition expression
evaluates (without raising) to a value `r`, the condition action's
execution equals the walk of exactly its `if_true` children (in
declared order, from the state with the two dispatch/evaluation log
entries appended) when `r` is truthy, and of exactly its `if_false`
children when `r` is falsy; an absent (or empty) matching branch makes
that walk the empty one, which performs no sub-execution and raises no
error.  The untaken branch does not appear in the result at all. -/
theorem condition_branching (sem : EngSem) (i : String) (ps : Ctx)
    (ov : Option String) (c : Option String) (ifT ifF : Option (List Action))
    (s : EngState) (r : Value)
    (heval : sem.evalSem (resolveVariables s.context (optStrValue c))
        s.context = Except.ok r) :
    execAction sem (Action.mk i "condition" ps ov c ifT ifF) s =
      (if r.truthy then
        execActions sem (ifT.getD [])
          (logMsg "INFO" ("Condition " ++ sq ++
              (resolveVariables s.context (optStrValue c)).display ++ sq ++
              " evaluated to: " ++ r.display)
            (logMsg "INFO"
              ("Executing action: " ++ i ++ " (type: " ++ "condition" ++ ")") s))
      else
        execActions sem (ifF.getD [])
          (logMsg "INFO" ("Condition " ++ sq ++
              (resolveVariables s.context (optStrValue c)).display ++ sq ++
              " evaluated to: " ++ r.display)
            (logMsg "INFO"
              ("Executing action: " ++ i ++ " (type: " ++ "condition" ++ ")") s))) := by
  rw [execAction,
    if_neg (by decide : ("condition" : String) ≠ "log"),
    if_neg (by decide : ("condition" : String) ≠ "python_code"),
    if_pos (rfl : ("condition" : String) = "condition")]
  show (match sem.evalSem (resolveVariables s.context (optStrValue c)) s.context with
    | Except.error e =>
      (logMsg "INFO" ("Executing action: " ++ i ++ " (type: " ++ "condition" ++ ")") s, some e)
    | Except.ok r =>
      execActions sem (pickBranch r ifT ifF)
        (logMsg "INFO" ("Condition " ++ sq ++
            (resolveVariables s.context (optStrValue c)).display ++ sq ++
            " evaluated to: " ++ r.display)
          (logMsg "INFO" ("Executing action: " ++ i ++ " (type: " ++ "condition" ++ ")") s))) = _
  rw [heval]
  show execActions sem (pickBranch r ifT ifF)
    (logMsg "INFO" ("Condition " ++ sq ++
        (resolveVariables s.context (optStrValue c)).display ++ sq ++
        " evaluated to: " ++ r.display)
      (logMsg "INFO" ("Executing action: " ++ i ++ " (type: " ++ "condition" ++ ")") s)) = _
  rw [pickBranch_eq]
  by_cases hr : r.truthy
  · simp only [hr, if_true]
  · simp only [hr, if_false, Bool.false_eq_true]

/-- The `if_true` child of the demo condition. -/
def setBlockAct : Action :=
  Action.mk "t" "set_variable"
    [("name", Value.vStr "outcome"), ("value", Value.vStr "block")] none none none none

/-- The `if_false` child of the demo condition. -/
def setAllowAct : Action :=
  Action.mk "f" "set_variable"
    [("name", Value.vStr "outcome"), ("value", Value.vStr "allow")] none none none none

/-- Witness for C4: under an `eval` returning `False`, the demo
condition action's execution is exactly the walk of its `if_false`
children. -/
theorem condition_branching_witness :
    execAction semMgrFalse
      (Action.mk "c1" "condition" [] none (some "risk_score > 50")
        (some [setBlockAct]) (some [setAllowAct])) (startState []) =
      execActions semMgrFalse ((some [setAllowAct]).getD [])
        (logMsg "INFO" ("Condition " ++ sq ++
            (resolveVariables (startState []).context
              (optStrValue (some "risk_score > 50"))).display ++ sq ++
            " evaluated to: " ++ (Value.vBool false).display)
          (logMsg "INFO"
            ("Executing action: " ++ "c1" ++ " (type: " ++ "condition" ++ ")")
            (startState []))) :=
  (condition_branching semMgrFalse "c1" [] none (some "risk_score > 50")
      (some [setBlockAct]) (some [setAllowAct]) (startState [])
      (Value.vBool false) rfl).trans
    (if_neg (by decide))

/-- C5: external-call error distinction.  (1) Executing an `api_call`
action on an engine with no integration manager raises the fatal
`Integration manager not configured` error right after the dispatch
entry (so the run aborts FAILED, by the run-boundary behaviour).
(2) The manager's `execute_action` on an unregistered integration name
returns the structured `success: false` failure value as an ordinary
result, raising nothing.  (3) End to end: a playbook whose single
action calls an unknown integration and stores to an output variable
ends SUCCESS with no error, and the context holds the structured
failure object under that variable. -/
theorem external_call_error_distinction :
    (∀ (sem : EngSem) (a : Action) (s : EngState),
      sem.integrationManager = none → a.type = "api_call" →
      execAction sem a s =
        (logMsg "INFO" (entryMsg a) s, some "Integration manager not configured")) ∧
    (∀ (m : IntegrationMgr) (n : String) (method : Value) (ps : Ctx),
      ilookup m.integrations n = none →
      m.executeAction (Value.vStr n) method ps = notFoundResult (Value.vStr n)) ∧
    (∀ (sem : EngSem) (ts : Nat → Nat) (mgr : IntegrationMgr)
       (nm ds tr : String) (inp : List String) (inputs : Ctx)
       (i n : String) (mv : Value) (ov : String),
      sem.integrationManager = some mgr →
      ilookup mgr.integrations n = none →
      ov ≠ "" →
      (execute sem ts
          ⟨nm, ds, tr, inp,
            [Action.mk i "api_call"
              [("integration", Value.vStr n), ("method", mv)]
              (some ov) none none none]⟩ inputs).status = "SUCCESS" ∧
      (execute sem ts
          ⟨nm, ds, tr, inp,
            [Action.mk i "api_call"
              [("integration", Value.vStr n), ("method", mv)]
              (some ov) none none none]⟩ inputs).error = none ∧
      alookup (execute sem ts
          ⟨nm, ds, tr, inp,
            [Action.mk i "api_call"
              [("integration", Value.vStr n), ("method", mv)]
              (some ov) none none none]⟩ inputs).context ov =
        some (notFoundResult (Value.vStr n))) := by
  refine ⟨?_, ?_, ?_⟩
  · intro sem a s hm hty
    obtain ⟨i, ty, ps, ov, c, ifT, ifF⟩ := a
    simp only [Action.type] at hty
    subst hty
    rw [execAction,
      if_neg (by decide : ("api_call" : String) ≠ "log"),
      if_neg (by decide : ("api_call" : String) ≠ "python_code"),
      if_neg (by decide : ("api_call" : String) ≠ "condition"),
      if_neg (by decide : ("api_call" : String) ≠ "set_variable"),
      if_pos (rfl : ("api_call" : String) = "api_call")]
    simp only [actionApiCall, hm]
    rfl
  · intro m n method ps hlook
    simp only [IntegrationMgr.executeAction]
    rw [hlook]
  · intro sem ts mgr nm ds tr inp inputs i n mv ov hm hlook hov
    have hcall : mgr.executeAction (Value.vStr n) mv [] = notFoundResult (Value.vStr n) := by
      simp only [IntegrationMgr.executeAction]
      rw [hlook]
    have hstep : ∀ st : EngState,
        actionApiCall sem
          (Action.mk i "api_call"
            [("integration", Value.vStr n), ("method", mv)] (some ov) none none none)
          st =
        (logMsg "INFO" ("Stored API result in variable: " ++ ov)
          { (logMsg "INFO" ("Calling " ++ (Value.vStr n).display ++ "." ++ mv.display ++
              " with params: " ++ (Value.vDict []).pyRepr) st) with
            context := ainsert
              (logMsg "INFO" ("Calling " ++ (Value.vStr n).display ++ "." ++ mv.display ++
                " with params: " ++ (Value.vDict []).pyRepr) st).context
              ov (notFoundResult (Value.vStr n)) }, none) := by
      intro st
      simp +decide only [actionApiCall, hm, Action.parameters, Action.outputVar,
        pget, alookup, List.map_nil, hcall, if_true, if_false]
      rw [if_neg hov]
    have hseq : execActions sem
        [Action.mk i "api_call"
          [("integration", Value.vStr n), ("method", mv)] (some ov) none none none]
        (runStart ⟨nm, ds, tr, inp,
          [Action.mk i "api_call"
            [("integration", Value.vStr n), ("method", mv)] (some ov) none none none]⟩ inputs) =
        (logMsg "INFO" ("Stored API result in variable: " ++ ov)
          { (logMsg "INFO" ("Calling " ++ (Value.vStr n).display ++ "." ++ mv.display ++
              " with params: " ++ (Value.vDict []).pyRepr)
              (logMsg "INFO" ("Executing action: " ++ i ++ " (type: " ++ "api_call" ++ ")")
                (runStart ⟨nm, ds, tr, inp,
                  [Action.mk i "api_call"
                    [("integration", Value.vStr n), ("method", mv)]
                    (some ov) none none none]⟩ inputs))) with
            context := ainsert [("inputs", Value.vDict inputs)] ov
              (notFoundResult (Value.vStr n)) }, none) := by
      rw [execActions, execAction,
        if_neg (by decide : ("api_call" : String) ≠ "log"),
        if_neg (by decide : ("api_call" : String) ≠ "python_code"),
        if_neg (by decide : ("api_call" : String) ≠ "condition"),
        if_neg (by decide : ("api_call" : String) ≠ "set_variable"),
        if_pos (rfl : ("api_call" : String) = "api_call"),
        hstep]
      simp only [execActions]
      rfl
    rw [execute_report]
    simp only [hseq]
    refine ⟨trivial, trivial, ?_⟩
    exact alookup_ainsert_self _ _ _

/-- The demo `api_call` action calling the unknown integration `vt`. -/
def apiCallAct : Action :=
  Action.mk "call" "api_call"
    [("integration", Value.vStr "vt"), ("method", Value.vStr "scan")]
    (some "out") none none none

/-- Witness for C5: with no manager the concrete `api_call` raises the
fatal configuration error; the empty manager returns the structured
failure value for `vt`; and the single-action run ends SUCCESS with the
failure object stored under `out`. -/
theorem external_call_error_distinction_witness :
    execAction semTrue apiCallAct (startState []) =
      (logMsg "INFO" (entryMsg apiCallAct) (startState []),
       some "Integration manager not configured") ∧
    IntegrationMgr.executeAction ⟨[]⟩ (Value.vStr "vt") (Value.vStr "scan") [] =
      notFoundResult (Value.vStr "vt") ∧
    (execute semMgrFalse tsId ⟨"A", "", "manual", [], [apiCallAct]⟩ []).status =
      "SUCCESS" ∧
    alookup (execute semMgrFalse tsId ⟨"A", "", "manual", [], [apiCallAct]⟩ []).context
        "out" = some (notFoundResult (Value.vStr "vt")) := by
  have h := external_call_error_distinction
  have h3 := h.2.2 semMgrFalse tsId ⟨[]⟩ "A" "" "manual" [] [] "call" "vt"
    (Value.vStr "scan") "out" rfl rfl (by decide)
  exact ⟨h.1 semTrue apiCallAct (startState []) rfl rfl,
    h.2.1 ⟨[]⟩ "vt" (Value.vStr "scan") [] rfl, h3.1, h3.2.2⟩

/-- C6: `python_code` semantics.  The code body runs on a variable
environment seeded from the current context (`codeSem` receives the
context as the globals `exec` is given); afterwards, when an output
variable is declared (and, as in Python's truthiness test, nonempty)
and the finishing environment has a `result` binding, that binding's
value is stored in the context under the output name and the assignment
is logged; when no (nonempty) output variable is declared or no
`result` binding exists, the capture step leaves the context exactly as
it was. -/
theorem code_eval_result_capture (sem : EngSem) (i : String) (ps : Ctx)
    (ov : Option String) (c : Option String) (ifT ifF : Option (List Action))
    (s : EngState) (env : Ctx)
    (hexec : sem.codeSem (pget ps "code" (Value.vStr "")) s.context = Except.ok env) :
    (∀ v w, ov = some v → v ≠ "" → alookup env "result" = some w →
      execAction sem (Action.mk i "python_code" ps ov c ifT ifF) s =
        (logMsg "INFO" ("Stored result in variable: " ++ v)
          { (logMsg "INFO" ("Executing action: " ++ i ++ " (type: " ++ "python_code" ++ ")") s) with
            context := ainsert s.context v w }, none)) ∧
    ((optTruthy ov = false ∨ alookup env "result" = none) →
      execAction sem (Action.mk i "python_code" ps ov c ifT ifF) s =
        (logMsg "INFO" ("Executing action: " ++ i ++ " (type: " ++ "python_code" ++ ")") s,
         none)) := by
  have hunfold : execAction sem (Action.mk i "python_code" ps ov c ifT ifF) s =
      actionPythonCode sem (Action.mk i "python_code" ps ov c ifT ifF)
        (logMsg "INFO" ("Executing action: " ++ i ++ " (type: " ++ "python_code" ++ ")") s) := by
    rw [execAction,
      if_neg (by decide : ("python_code" : String) ≠ "log"),
      if_pos (rfl : ("python_code" : String) = "python_code")]
  constructor
  · intro v w hov hv hres
    subst hov
    rw [hunfold]
    simp only [actionPythonCode, Action.parameters, Action.outputVar, logMsg]
    simp only [hexec]
    rw [if_neg hv, hres]
  · intro hcap
    rw [hunfold]
    simp only [actionPythonCode, Action.parameters, Action.outputVar, logMsg]
    simp only [hexec]
    cases ov with
    | none => rfl
    | some v =>
      cases hcap with
      | inl h =>
        have hv : v = "" := by
          simp [optTruthy] at h
          exact h
        subst hv
        rfl
      | inr h =>
        by_cases hv : v = ""
        · subst hv
          rfl
        · simp only [if_neg hv, h]

/-- A semantics whose `exec` binds `result` to 42 in its environment. -/
def semCode : EngSem :=
  ⟨none, fun _ c => Except.ok (ainsert c "result" (Value.vInt 42)),
   fun _ _ => Except.ok (Value.vBool true)⟩

/-- Witness for C6: with a code body that binds `result`, the declared
output variable receives the value; with no output variable declared,
the context is untouched. -/
theorem code_eval_result_capture_witness :
    execAction semCode
      (Action.mk "p" "python_code" [] (some "out") none none none) (startState []) =
      (logMsg "INFO" ("Stored result in variable: " ++ "out")
        { (logMsg "INFO" ("Executing action: " ++ "p" ++ " (type: " ++ "python_code" ++ ")")
            (startState [])) with
          context := ainsert (startState []).context "out" (Value.vInt 42) }, none) ∧
    execAction semTrue
      (Action.mk "q" "python_code" [] none none none none) (startState []) =
      (logMsg "INFO" ("Executing action: " ++ "q" ++ " (type: " ++ "python_code" ++ ")")
        (startState []), none) := by
  constructor
  · exact (code_eval_result_capture semCode "p" [] (some "out") none none none
      (startState []) (ainsert (startState []).context "result" (Value.vInt 42))
      rfl).1 "out" (Value.vInt 42) rfl (by decide) rfl
  · exact (code_eval_result_capture semTrue "q" [] none none none none
      (startState []) (startState []).context rfl).2 (Or.inl rfl)

/-- Dropping the timestamps from a stamped log recovers exactly the
run's (level, message) sequence, whatever the clock stream was. -/
theorem stampLog_proj (ts : Nat → Nat) (l : List (String × String)) (i : Nat) :
    (stampLog ts i l).map (fun en => (en.level, en.message)) = l := by
  induction l generalizing i with
  | nil => rfl
  | cons p rest ih =>
    cases p
    simp [stampLog, ih]

/-- C9: sequential determinism.  The tree walk is a function of the
playbook, the inputs and the semantic oracles alone (the integration
gateway is a function of its arguments, `exec`/`eval` are functions of
code and context); the wall clock only decorates log entries.  Two runs
of the same playbook with the same inputs against the same oracles,
under arbitrary (possibly different) clock streams, produce reports
with identical status, error, final context, and identical ordered
(level, message) log sequences — identical aside from timestamps. -/
theorem sequential_determinism (sem : EngSem) (ts ts' : Nat → Nat)
    (pb : Playbook) (inputs : Ctx) :
    (execute sem ts pb inputs).status = (execute sem ts' pb inputs).status ∧
    (execute sem ts pb inputs).error = (execute sem ts' pb inputs).error ∧
    (execute sem ts pb inputs).context = (execute sem ts' pb inputs).context ∧
    (execute sem ts pb inputs).execution_log.map (fun en => (en.level, en.message)) =
      (execute sem ts' pb inputs).execution_log.map (fun en => (en.level, en.message)) := by
  rcases hw : execActions sem pb.actions (runStart pb inputs) with ⟨s2, err⟩
  cases err with
  | none =>
    rw [execute_report sem ts pb inputs, execute_report sem ts' pb inputs, hw]
    exact ⟨rfl, rfl, rfl, by rw [stampLog_proj, stampLog_proj]⟩
  | some e =>
    rw [execute_report sem ts pb inputs, execute_report sem ts' pb inputs, hw]
    exact ⟨rfl, rfl, rfl, by rw [stampLog_proj, stampLog_proj]⟩

/-- A malformed playbook document: its first action object lacks both
`type` and `id`, its second is a `condition` node lacking `condition`. -/
def malformedDoc : Value :=
  Value.vDict [("playbook", Value.vDict
    [("actions", Value.vList
      [Value.vDict [("parameters", Value.vDict [])],
       Value.vDict [("id", Value.vStr "c"), ("type", Value.vStr "condition")]])])]

/-- What the loader actually produces from `malformedDoc`: defaults, no
error. -/
def pbMalformed : Playbook :=
  ⟨"Unnamed Playbook", "", "manual", [],
   [Action.mk "" "" [] none none none none,
    Action.mk "c" "condition" [] none none none none]⟩

/-- Counterexample to C7: loading the malformed document raises nothing
— the loader is a total function producing a playbook with defaulted
fields — and the engine does receive the malformed tree: executing it
fails only at run time with `Unknown action type: ` (the FAILED report,
not a load-time error). -/
theorem loader_accepts_malformed_counterexample :
    fromDict malformedDoc = pbMalformed ∧
    (execute semTrue tsId pbMalformed []).status = "FAILED" ∧
    (execute semTrue tsId pbMalformed []).error = some ("Unknown action type: " ++ "") := by
  have hparse : fromDict malformedDoc = pbMalformed := by
    simp only [fromDict, malformedDoc, parseList, parseAction, parseItems,
      findParseBranch, getStrD, getOptStr, getDictD, alookup]
    rfl
  have hseq : execActions semTrue pbMalformed.actions (runStart pbMalformed []) =
      ({ context := [("inputs", Value.vDict [])],
         log := [("INFO", "Starting playbook: Unnamed Playbook"),
                 ("INFO", "Executing action:  (type: )")] },
       some ("Unknown action type: " ++ "")) := by
    simp only [pbMalformed, execActions, execAction]
    rfl
  refine ⟨hparse, ?_, ?_⟩
  · rw [execute_report, hseq]
  · rw [execute_report, hseq]

/-- C7 as amended: the loader rejects nothing.  An action object
missing `id` parses with the empty string as identifier, one missing
`type` parses with the empty string as type tag, and a `condition`
node missing its `condition` field parses with no condition — loading
is total, never raising, and the resulting (malformed) tree is handed
to the engine, which fails only at execution time. -/
theorem loader_defaults_missing_fields :
    (∀ es : Ctx, alookup es "id" = none → (parseAction (Value.vDict es)).id = "") ∧
    (∀ es : Ctx, alookup es "type" = none → (parseAction (Value.vDict es)).type = "") ∧
    (∀ es : Ctx, alookup es "type" = some (Value.vStr "condition") →
      alookup es "condition" = none →
      (parseAction (Value.vDict es)).type = "condition" ∧
      (parseAction (Value.vDict es)).cond = none) := by
  refine ⟨?_, ?_, ?_⟩
  · intro es hid
    rw [parseAction]
    simp only [Action.id, getStrD, hid]
  · intro es hty
    rw [parseAction]
    simp only [Action.type, getStrD, hty]
  · intro es hty hc
    rw [parseAction]
    simp only [Action.type, Action.cond, getStrD, getOptStr, hty, hc]
    exact ⟨trivial, trivial⟩

/-- Witness for the amended C7 at concrete malformed action objects. -/
theorem loader_defaults_missing_fields_witness :
    (parseAction (Value.vDict [])).id = "" ∧
    (parseAction (Value.vDict [])).type = "" ∧
    (parseAction (Value.vDict [("type", Value.vStr "condition")])).type = "condition" ∧
    (parseAction (Value.vDict [("type", Value.vStr "condition")])).cond = none := by
  have h := loader_defaults_missing_fields
  have h3 := h.2.2 [("type", Value.vStr "condition")] rfl rfl
  exact ⟨h.1 [] rfl, h.2.1 [] rfl, h3.1, h3.2⟩

/-- Rebuilding a string from its character data is the identity. -/
theorem mk_data (s : String) : String.mk s.data = s := by
  rcases s with ⟨d⟩
  rfl

/-- A well-formed token whose lookup result displays as `None` (either
the path does not resolve, or it resolves to the value `None`) is left
verbatim by the resolver. -/
theorem token_verbatim_of_lookup_none (ctx : Ctx) (p : String)
    (h1 : p.data ≠ []) (h2 : ∀ c ∈ p.data, c ≠ rbC)
    (hN : (specResolvePath ctx (pyStrip p)).getD Value.vNone = Value.vNone) :
    resolveString ctx (mkToken p) = mkToken p := by
  unfold resolveString
  have hshape : (mkToken p).data = lbC :: lbC :: (p.data ++ rbC :: rbC :: []) := rfl
  rw [hshape, resolveChars_cons_some ctx lbC (lbC :: (p.data ++ rbC :: rbC :: []))
    p.data [] (tryTok_token p.data [] h1 h2)]
  have hrep : replaceToken ctx p.data = lbC :: lbC :: p.data ++ [rbC, rbC] := by
    unfold replaceToken
    rw [mk_data, getNestedValue_spec, hN]
  rw [hrep]
  show String.mk ((lbC :: lbC :: p.data ++ [rbC, rbC]) ++ []) = mkToken p
  rw [List.append_nil]
  rfl

/-- Counterexample to C3 as stated: in the context binding `a` to
`None`, the path `a` resolves by nested-mapping lookup (to the value
`None`, whose display-string form is `None`), yet the resolver leaves
the token text verbatim instead of substituting that display form. -/
theorem resolved_none_token_counterexample :
    specResolvePath [("a", Value.vNone)] "a" = some Value.vNone ∧
    Value.display Value.vNone = "None" ∧
    resolveString [("a", Value.vNone)] (mkToken "a") = mkToken "a" ∧
    mkToken "a" ≠ Value.display Value.vNone := by
  exact ⟨rfl, rfl, by decide, by decide⟩

/-- C3 as amended: resolution never mutates the context (it is a pure
function of it); a non-string template passes through unchanged; and on
a string template made of literal pieces (no left brace) and
well-formed `path` tokens, every token whose lookup succeeds with a
non-`None` value is replaced by that value's display-string form, while
every token whose lookup fails — or succeeds with the value `None` — is
left verbatim, each token resolved independently against the same
context. -/
theorem resolver_spec (ctx : Ctx) :
    (∀ v : Value, (∀ s, v ≠ Value.vStr s) → resolveVariables ctx v = v) ∧
    (∀ items : List TItem, (∀ it ∈ items, wfItem it) →
      resolveVariables ctx (Value.vStr (renderT items)) =
        Value.vStr (resolveT ctx items)) := by
  constructor
  · intro v hv
    cases v with
    | vStr s => exact absurd rfl (hv s)
    | vNone => rfl
    | vInt n => rfl
    | vBool b => rfl
    | vDict d => rfl
    | vList l => rfl
  · intro items hwf
    show Value.vStr (resolveString ctx (renderT items)) = _
    unfold resolveString
    rw [resolveChars_render ctx items hwf, mk_data]

/-- Witness for the amended C3: one literal piece and one bound token
resolve to the substituted text; a non-string template is unchanged. -/
theorem resolver_spec_witness :
    resolveVariables [("inputs", Value.vDict [("name", Value.vStr "world")])]
      (Value.vStr (renderT [TItem.lit "hello ", TItem.tok "inputs.name"])) =
      Value.vStr "hello world" ∧
    resolveVariables [] (Value.vInt 7) = Value.vInt 7 := by
  constructor
  · have h := (resolver_spec [("inputs", Value.vDict [("name", Value.vStr "world")])]).2
      [TItem.lit "hello ", TItem.tok "inputs.name"]
      (by
        intro it hit
        simp only [List.mem_cons, List.mem_singleton] at hit
        rcases hit with rfl | rfl | h
        · show ∀ c ∈ "hello ".data, c ≠ lbC
          decide
        · show "inputs.name".data ≠ [] ∧ ∀ c ∈ "inputs.name".data, c ≠ rbC
          decide
        · cases h)
    rw [h, show resolveT [("inputs", Value.vDict [("name", Value.vStr "world")])]
      [TItem.lit "hello ", TItem.tok "inputs.name"] = "hello world" from by decide]
  · exact (resolver_spec []).1 (Value.vInt 7) (fun s h => Value.noConfusion h)

/-- C10: a token whose path lookup succeeds but finds the stored value
`None` is left verbatim in the output, exactly as a token whose path
does not resolve at all is: a context entry bound to `None` and an
unbound path give identical resolved output. -/
theorem none_binding_indistinguishable (ctx ctx2 : Ctx) (p : String)
    (h1 : p.data ≠ []) (h2 : ∀ c ∈ p.data, c ≠ rbC)
    (hN : specResolvePath ctx (pyStrip p) = some Value.vNone)
    (hA : specResolvePath ctx2 (pyStrip p) = none) :
    resolveString ctx (mkToken p) = mkToken p ∧
    resolveString ctx2 (mkToken p) = mkToken p ∧
    resolveString ctx (mkToken p) = resolveString ctx2 (mkToken p) := by
  have hx := token_verbatim_of_lookup_none ctx p h1 h2 (by rw [hN]; rfl)
  have hy := token_verbatim_of_lookup_none ctx2 p h1 h2 (by rw [hA]; rfl)
  exact ⟨hx, hy, hx.trans hy.symm⟩

/-- Witness for C10: `a` bound to `None` and the empty context resolve
the token identically, leaving it verbatim. -/
theorem none_binding_indistinguishable_witness :
    resolveString [("a", Value.vNone)] (mkToken "a") = mkToken "a" ∧
    resolveString [] (mkToken "a") = mkToken "a" ∧
    resolveString [("a", Value.vNone)] (mkToken "a") =
      resolveString [] (mkToken "a") :=
  none_binding_indistinguishable [("a", Value.vNone)] [] "a"
    (by decide) (by decide) rfl rfl

end PySOAR
